import Mathlib

/-!
Shallow embedding of the conversational turn-taking core of the
`agent-cli` voice-assistant repository, together with proofs about it.

Each definition is translated from a concrete Python function of the
repository (file and line references are given in the doc comments).
Machine-level details that the claims do not depend on (byte encodings,
wall-clock time, the Rich console) are abstracted in the standard way:
byte strings become lists of naturals, timestamps become integers,
the event channel becomes a list of typed events.
-/

namespace AgentCli

/-! ## Python-level error values

Exceptions that the embedded code can raise or catch.  `attributeError`
models a failed dynamic attribute lookup, `osError` the OSError class
caught by the audio reader, `connectionRefused` the ConnectionRefusedError
caught at the turn boundary, and `exc` any other Exception. -/

inductive PyErr where
  | attributeError (attr : String)
  | osError
  | connectionRefused
  | exc (msg : String)
deriving DecidableEq, Repr

/-! ## Cancellable stop signal (src/agent_cli/utils.py, lines 46-72) -/

/-- State of the `InteractiveStopEvent` class: the wrapped
`asyncio.Event` flag and the SIGINT counter.  Mirrors `__init__`,
which creates a cleared event and a zero counter. -/
structure InteractiveStopEvent where
  eventSet : Bool
  sigintCount : Nat
deriving DecidableEq, Repr

/-- The `__init__` state: event cleared, counter 0. -/
def InteractiveStopEvent.init : InteractiveStopEvent :=
  ⟨false, 0⟩

/-- Method `is_set` (utils.py line 56). -/
def InteractiveStopEvent.is_set (e : InteractiveStopEvent) : Bool :=
  e.eventSet

/-- Method `set` (utils.py line 60): sets the event only. -/
def InteractiveStopEvent.set (e : InteractiveStopEvent) : InteractiveStopEvent :=
  ⟨true, e.sigintCount⟩

/-- Method `clear` (utils.py line 64): clears the event and resets the
SIGINT counter to 0. -/
def InteractiveStopEvent.clear (_e : InteractiveStopEvent) : InteractiveStopEvent :=
  ⟨false, 0⟩

/-- Method `increment_sigint_count` (utils.py line 69): increments the
counter and returns the new value together with the new state. -/
def InteractiveStopEvent.increment_sigint_count (e : InteractiveStopEvent) :
    Nat × InteractiveStopEvent :=
  (e.sigintCount + 1, ⟨e.eventSet, e.sigintCount + 1⟩)

/-- State after `n` successive `increment_sigint_count` calls. -/
def InteractiveStopEvent.afterIncrements (e : InteractiveStopEvent) : Nat → InteractiveStopEvent
  | 0 => e
  | n + 1 => (e.afterIncrements n).increment_sigint_count.2

/-- Value returned by the `(k+1)`-th `increment_sigint_count` call in a
sequence of calls starting from state `e` with no intervening `clear`. -/
def InteractiveStopEvent.callValue (e : InteractiveStopEvent) (k : Nat) : Nat :=
  ((e.afterIncrements k).increment_sigint_count).1

/-- Dynamic lookup of the attribute `ctrl_c_pressed` on an
`InteractiveStopEvent`.  The class defines no such attribute (utils.py
lines 46-72 define only `_event`, `_sigint_count` and the four methods),
so in Python the lookup raises `AttributeError`, whatever the state of
the event is. -/
def InteractiveStopEvent.getattrCtrlCPressed (_e : InteractiveStopEvent) :
    Except PyErr Bool :=
  .error (.attributeError "ctrl_c_pressed")

/-! ## Time-ago formatting (src/agent_cli/utils.py, lines 75-88) -/

/-- `format_timedelta_to_ago` on a whole number of seconds.
`int(td.total_seconds())` gives the integer `total`; the three `divmod`
calls are floor divisions, so they are embedded with `Int.fdiv` and
`Int.fmod`, which agree with Python `divmod` on all integers. -/
def format_timedelta_to_ago (total : Int) : String :=
  let minutes0 := Int.fdiv total 60
  let seconds := Int.fmod total 60
  let hours0 := Int.fdiv minutes0 60
  let minutes := Int.fmod minutes0 60
  let days := Int.fdiv hours0 24
  let hours := Int.fmod hours0 24
  if days > 0 then
    toString days ++ " day" ++ (if days ≠ 1 then "s" else "") ++ " ago"
  else if hours > 0 then
    toString hours ++ " hour" ++ (if hours ≠ 1 then "s" else "") ++ " ago"
  else if minutes > 0 then
    toString minutes ++ " minute" ++ (if minutes ≠ 1 then "s" else "") ++ " ago"
  else
    toString seconds ++ " second" ++ (if seconds ≠ 1 then "s" else "") ++ " ago"

/-! ## Conversation history (src/agent_cli/agents/interactive.py) -/

/-- A `ConversationEntry` (interactive.py lines 56-61).  Timestamps are
ISO-8601 strings in the source; they are embedded as integer epoch
seconds, which is what the formatting code extracts from them. -/
structure ConversationEntry where
  role : String
  content : String
  timestamp : Int
deriving DecidableEq, Repr

/-- `_format_conversation_for_llm` (interactive.py lines 137-147):
empty history yields a fixed literal, otherwise one line per entry with
the time-ago rendering of `now - entry.timestamp`. -/
def format_conversation_for_llm (now : Int) (history : List ConversationEntry) : String :=
  if history.isEmpty then
    "No previous conversation."
  else
    String.intercalate "\n"
      (history.map fun e =>
        e.role ++ " (" ++ format_timedelta_to_ago (now - e.timestamp) ++ "): " ++ e.content)

/-! ## Streaming audio reader (src/agent_cli/audio.py, lines 43-104) -/

/-- A captured audio chunk: a byte string, embedded as a list of byte
values. -/
abbrev Chunk := List Nat

/-- Result of one blocking `stream.read` call: a chunk, or an `OSError`
(the only exception class the read loop catches). -/
inductive ReadResult where
  | ok (chunk : Chunk)
  | osErr
deriving DecidableEq, Repr

/-- What one run of `read_audio_stream` did: the chunks passed to the
`chunk_handler`, in order, and the exception that escaped the loop, if
any.  `error = none` covers both the normal exit (stop event observed)
and the graceful `except OSError` exit. -/
structure ReadLog where
  handled : List Chunk
  error : Option PyErr
deriving DecidableEq, Repr

/-- The `while not stop_event.is_set()` loop of `read_audio_stream`
(audio.py lines 72-104), one constructor step per iteration.

* `isSet i` is the value `stop_event.is_set()` returns at the `i`-th
  loop check (the signal is set externally, so it is a schedule).
* `reads i` is the outcome of the `i`-th `stream.read` call.
* `live` is whether a Rich `Live` display was passed (`live is not None`)
  and `quiet` the `quiet` flag; the display update runs when
  `live and not quiet`.
* The display update first evaluates `stop_event.ctrl_c_pressed`
  (audio.py line 92); the class defines no such attribute, so the
  lookup raises (see `InteractiveStopEvent.getattrCtrlCPressed`) and the
  exception, not being an `OSError`, escapes the loop.
* `fuel` bounds the number of iterations the embedding unfolds; every
  theorem below supplies enough fuel for the run it describes. -/
def readAudioLoop (isSet : Nat → Bool) (reads : Nat → ReadResult) (live quiet : Bool)
    (stopState : InteractiveStopEvent) :
    Nat → Nat → List Chunk → ReadLog
  | 0, _, acc => ⟨acc, none⟩
  | fuel + 1, i, acc =>
    if isSet i then ⟨acc, none⟩
    else
      match reads i with
      | .osErr => ⟨acc, none⟩
      | .ok chunk =>
        let acc := acc ++ [chunk]
        if live && !quiet then
          match stopState.getattrCtrlCPressed with
          | .error e => ⟨acc, some e⟩
          | .ok _ => readAudioLoop isSet reads live quiet stopState fuel (i + 1) acc
        else
          readAudioLoop isSet reads live quiet stopState fuel (i + 1) acc

/-- `read_audio_stream` (audio.py lines 43-104): run the read loop from
iteration 0 with an empty handler log. -/
def read_audio_stream (fuel : Nat) (isSet : Nat → Bool) (reads : Nat → ReadResult)
    (live quiet : Bool) (stopState : InteractiveStopEvent) : ReadLog :=
  readAudioLoop isSet reads live quiet stopState fuel 0 []

/-! ## Wyoming protocol events written by the ASR sender -/

/-- Modelled from the spec: the module `agent_cli/config.py` referenced
by `asr.py` (`config.WYOMING_AUDIO_CONFIG`, `config.PYAUDIO_RATE`,
`config.PYAUDIO_CHANNELS`) is not in the source tree; spec section 4.4
fixes the standard parameters as mono, 16-bit, 16 kHz. -/
def PYAUDIO_RATE : Nat := 16000

/-- Modelled from the spec: channel count, see `PYAUDIO_RATE`. -/
def PYAUDIO_CHANNELS : Nat := 1

/-- Modelled from the spec: sample width in bytes, see `PYAUDIO_RATE`. -/
def SAMPLE_WIDTH : Nat := 2

/-- Events the ASR sender writes to the Wyoming client
(asr.py lines 46-68). -/
inductive WyEvent where
  | transcribe
  | audioStart (rate width channels : Nat)
  | audioChunk (rate width channels : Nat) (audio : Chunk)
  | audioStop
deriving DecidableEq, Repr

/-- What one run of `send_audio` did: the events written to the client,
in order, and the exception propagating out of it, if any. -/
structure SendLog where
  written : List WyEvent
  error : Option PyErr
deriving DecidableEq, Repr

/-- `send_audio` (asr.py lines 26-69): write the `Transcribe` request
and the `AudioStart` marker, then run `read_audio_stream` with a handler
that wraps each chunk in an `AudioChunk` event, and finally — in a
`try/finally`, hence also when the read loop raised — write the
`AudioStop` marker.  An exception from the read loop is re-raised after
the `finally` block. -/
def send_audio (fuel : Nat) (isSet : Nat → Bool) (reads : Nat → ReadResult)
    (live quiet : Bool) (stopState : InteractiveStopEvent) : SendLog :=
  let log := read_audio_stream fuel isSet reads live quiet stopState
  { written :=
      [.transcribe, .audioStart PYAUDIO_RATE SAMPLE_WIDTH PYAUDIO_CHANNELS]
        ++ log.handled.map (fun c => .audioChunk PYAUDIO_RATE SAMPLE_WIDTH PYAUDIO_CHANNELS c)
        ++ [.audioStop]
    error := log.error }

/-! ## ASR transcript receiver (src/agent_cli/asr.py, lines 118-158) -/

/-- Events the transcript receiver can read.  The event stream is a
list; reading past its end models `read_event` returning `None`
(connection closed). -/
inductive AsrEvent where
  | transcript (text : String)
  | transcriptChunk (text : String)
  | transcriptStart
  | transcriptStop
  | other (t : String)
deriving DecidableEq, Repr

/-- What one run of `receive_text` did: the returned transcript text,
the texts passed to `chunk_callback` and to `final_callback`, and the
events left unconsumed on the stream. -/
structure RecvLog where
  transcriptText : String
  chunkCalls : List String
  finalCalls : List String
  rest : List AsrEvent
deriving DecidableEq, Repr

/-- The `while True` loop of `receive_text` (asr.py lines 135-156).
`acc` is the local variable `transcript_text` (initially the empty
string, assigned only in the final-transcript branch, which breaks). -/
def receiveTextLoop (acc : String) (chunkCalls finalCalls : List String) :
    List AsrEvent → RecvLog
  | [] => ⟨acc, chunkCalls, finalCalls, []⟩
  | e :: rest =>
    match e with
    | .transcript t => ⟨t, chunkCalls, finalCalls ++ [t], rest⟩
    | .transcriptChunk t => receiveTextLoop acc (chunkCalls ++ [t]) finalCalls rest
    | .transcriptStart => receiveTextLoop acc chunkCalls finalCalls rest
    | .transcriptStop => receiveTextLoop acc chunkCalls finalCalls rest
    | .other _ => receiveTextLoop acc chunkCalls finalCalls rest

/-- `receive_text` (asr.py lines 118-158). -/
def receive_text (events : List AsrEvent) : RecvLog :=
  receiveTextLoop "" [] [] events

/-- Events in an `AsrEvent` stream that the receiver treats as a final
transcript. -/
def AsrEvent.isFinal : AsrEvent → Bool
  | .transcript _ => true
  | _ => false

/-! ## Wake-word receiver (src/agent_cli/wake_word.py, lines 77-113) -/

/-- Events the wake-word receiver can read; the list end again models a
closed connection.  A `Detection` event carries an optional name. -/
inductive WakeEvent where
  | detection (name : Option String)
  | notDetected
  | other (t : String)
deriving DecidableEq, Repr

/-- Python `detection.name or "unknown"` (wake_word.py line 102): the
`or` falls through to `"unknown"` when the name is `None` and also when
it is the (falsy) empty string. -/
def orUnknown : Option String → String
  | none => "unknown"
  | some s => if s.isEmpty then "unknown" else s

/-- `receive_wake_detection` (wake_word.py lines 77-113): first
`Detection` event returns its name (defaulted to `"unknown"`), a
`NotDetected` event or a closed connection returns `None`, other events
are ignored. -/
def receive_wake_detection : List WakeEvent → Option String
  | [] => none
  | e :: rest =>
    match e with
    | .detection name => some (orUnknown name)
    | .notDetected => none
    | .other _ => receive_wake_detection rest

/-- Events that `receive_wake_detection` ignores. -/
def WakeEvent.isOther : WakeEvent → Bool
  | .other _ => true
  | _ => false

/-! ## Wake-word gate race (src/agent_cli/wake_word.py, lines 166-197) -/

/-- Outcome of `asyncio.wait([send_task, recv_task],
return_when=FIRST_COMPLETED)`: which of the two tasks are in the `done`
set.  `asyncio.wait` returns only when at least one task completed, so
the race theorems assume `sendDone ∨ recvDone`. -/
structure GateDone where
  sendDone : Bool
  recvDone : Bool
deriving DecidableEq, Repr

/-- The post-race logic of `detect_wake_word` (wake_word.py lines
184-197): every pending task is cancelled, and the gate returns
`recv_task.result()` when the receiver task is in `done`, else `None`.
`recvResult` is the value `receive_wake_detection` completed with (it is
consulted only when `recvDone` holds: the result of a cancelled receiver
is never read). -/
def gateResult (d : GateDone) (recvResult : Option String) : Option String :=
  if d.recvDone then recvResult else none

/-- Whether the sender task is cancelled by the gate: exactly when it is
still pending after the race. -/
def gateCancelsSend (d : GateDone) : Bool :=
  !d.sendDone

/-- Whether the receiver task is cancelled by the gate: exactly when it
is still pending after the race. -/
def gateCancelsRecv (d : GateDone) : Bool :=
  !d.recvDone

/-- `detect_wake_word` (wake_word.py lines 116-210): the whole body —
connect, `Detect` request, stream setup and the race — runs in a `try`
whose two `except` arms (`ConnectionRefusedError`, then any other
`Exception`) both return `None`.  `body` is the outcome of that block:
either the race outcome together with the receiver result, or the
exception raised. -/
def detect_wake_word (body : Except PyErr (GateDone × Option String)) : Option String :=
  match body with
  | .ok (d, recvResult) => gateResult d recvResult
  | .error .connectionRefused => none
  | .error _ => none

/-- `transcribe_audio` (asr.py lines 161-213): the connection, the
stream and the send/receive pair run inside
`try: ... except (ConnectionRefusedError, Exception): return None`; on
success it returns `recv_task.result()`, the transcript text that
`receive_text` computed from the events read. -/
def transcribe_audio (body : Except PyErr (List AsrEvent)) : Option String :=
  match body with
  | .ok events => some (receive_text events).transcriptText
  | .error _ => none

/-! ## LLM call (src/agent_cli/llm.py, lines 61-153) -/

/-- `get_llm_response`: `agent.run` either produces text or raises; the
`except Exception` arm (llm.py lines 145-153) logs, and then either
calls `sys.exit(1)` (when `exit_on_error`) or returns `None`.  The
result type separates a process exit (`.error` with the exit code) from
a normal return. -/
def get_llm_response (runResult : Except PyErr String) (exitOnError : Bool) :
    Except Nat (Option String) :=
  match runResult with
  | .ok text => .ok (some text)
  | .error _ => if exitOnError then .error 1 else .ok none

/-! ## Conversation orchestrator (src/agent_cli/agents/interactive.py, lines 212-299) -/

/-- ASCII whitespace, the characters Python `str.strip()` removes
(beyond these it also strips some Unicode spaces, which no claim
exercises). -/
def pyIsSpace (c : Char) : Bool :=
  c = ' ' || c = '\t' || c = '\n' || c = '\r' || c = '\x0b' || c = '\x0c'

/-- The test `not instruction or not instruction.strip()` of
interactive.py line 225 on a present instruction: true exactly when the
string is empty or consists of whitespace only. -/
def isBlank (s : String) : Bool :=
  s.data.all pyIsSpace

/-- The orchestrator state one loop iteration acts on: the in-memory
`conversation_history` list, the persisted contents of
`conversation.json` (`none` when the file does not exist yet), and the
shared stop event. -/
structure OrchState where
  conversationHistory : List ConversationEntry
  historyFile : Option (List ConversationEntry)
  stopEvent : InteractiveStopEvent
deriving DecidableEq, Repr

/-- How one loop iteration ends: the process exits (only reachable
through `sys.exit` inside a callee), or control reaches the next
`while not stop_event.is_set()` check with the given state. -/
inductive IterEnd where
  | exited (code : Nat)
  | next (s : OrchState)
deriving DecidableEq, Repr

/-- `_save_conversation_history` (interactive.py lines 132-134):
overwrite the whole file with the given history. -/
def save_conversation_history (_file : Option (List ConversationEntry))
    (history : List ConversationEntry) : Option (List ConversationEntry) :=
  some history

/-- One iteration of the `while not stop_event.is_set()` loop of
`async_main` (interactive.py lines 212-299).

* `instruction` is what `asr.transcribe_audio` returned (`none` on a
  turn-level error).
* `llmRun` is the outcome of the `agent.run` call inside
  `get_llm_response`, which `async_main` invokes with the default
  `exit_on_error=False`.
* `userTs` and `asstTs` are the two `datetime.now(UTC)` readings.

Control flow, in source order: the empty/whitespace check continues
the loop with the state unchanged; otherwise the user entry is appended
(step 2), the LLM is consulted (step 4), a falsy response continues the
loop (keeping the appended user entry, saving nothing); otherwise the
assistant entry is appended (step 5), the whole history is saved
(step 6), TTS playback runs with its own `try/except` that touches
neither history nor the stop event (step 7, `_tts_common.py` lines
122-155), and `stop_event.clear()` runs (step 8). -/
def interactiveLoopIter (s : OrchState) (instruction : Option String)
    (llmRun : Except PyErr String) (userTs asstTs : Int) : IterEnd :=
  match instruction with
  | none => .next s
  | some instr =>
    if isBlank instr then
      .next s
    else
      let h1 := s.conversationHistory ++ [⟨"user", instr, userTs⟩]
      match get_llm_response llmRun false with
      | .error code => .exited code
      | .ok none => .next ⟨h1, s.historyFile, s.stopEvent⟩
      | .ok (some response) =>
        if response = "" then
          .next ⟨h1, s.historyFile, s.stopEvent⟩
        else
          let h2 := h1 ++ [⟨"assistant", response, asstTs⟩]
          .next ⟨h2, save_conversation_history s.historyFile h2, s.stopEvent.clear⟩

end AgentCli

/-! ## Theorems -/

open AgentCli

/-- Counter value after a block of increment calls: each call adds one
to the stored counter. -/
theorem afterIncrements_sigintCount (e : InteractiveStopEvent) (n : Nat) :
    (e.afterIncrements n).sigintCount = e.sigintCount + n := by
  induction n with
  | zero => rfl
  | succ n ih =>
    simp [InteractiveStopEvent.afterIncrements, InteractiveStopEvent.increment_sigint_count, ih]
    omega

/-- Claim C7: in any sequence of `increment_sigint_count` calls with no
intervening `clear`, the `(k+1)`-th call returns `sigintCount + k + 1`,
so successive return values strictly increase and, from the initial
state, start at 1; `clear` resets the counter to 0 whatever its prior
value; `set` never changes the counter. -/
theorem stop_signal_counter_semantics (e : InteractiveStopEvent) (k : Nat) :
    e.callValue k = e.sigintCount + k + 1
    ∧ e.callValue k < e.callValue (k + 1)
    ∧ InteractiveStopEvent.init.callValue 0 = 1
    ∧ e.clear.sigintCount = 0
    ∧ e.set.sigintCount = e.sigintCount := by
  have hval : ∀ m : Nat, e.callValue m = e.sigintCount + m + 1 := by
    intro m
    simp [InteractiveStopEvent.callValue, InteractiveStopEvent.increment_sigint_count,
      afterIncrements_sigintCount]
  refine ⟨hval k, ?_, rfl, rfl, rfl⟩
  rw [hval k, hval (k + 1)]
  omega

/-- Claim C9: boundary cases of the time-ago rendering — 90 seconds is
"1 minute ago", 3661 seconds is "1 hour ago", exactly 86400 seconds is
"1 day ago" (and 172800 is the plural "2 days ago") — and formatting an
empty conversation history yields the fixed literal. -/
theorem time_ago_formatting_boundaries :
    format_timedelta_to_ago 90 = "1 minute ago"
    ∧ format_timedelta_to_ago 3661 = "1 hour ago"
    ∧ format_timedelta_to_ago 86400 = "1 day ago"
    ∧ format_timedelta_to_ago 172800 = "2 days ago"
    ∧ (∀ now : Int, format_conversation_for_llm now [] = "No previous conversation.") := by
  refine ⟨by decide, by decide, by decide, by decide, ?_⟩
  intro now
  rfl

/-- Claim C6: an exception raised anywhere inside the body of the
wake-word gate or of the ASR turn coordinator — connection refused
included — is translated to a `None` result and never propagated: both
functions are total and map every error outcome to `none`, while a
normal body outcome passes through to the usual result. -/
theorem turn_boundary_error_translation (e : PyErr) (d : GateDone)
    (r : Option String) (events : List AsrEvent) :
    detect_wake_word (.error e) = none
    ∧ transcribe_audio (.error e) = none
    ∧ detect_wake_word (.ok (d, r)) = gateResult d r
    ∧ transcribe_audio (.ok events) = some (receive_text events).transcriptText := by
  refine ⟨?_, rfl, rfl, rfl⟩
  cases e <;> rfl

/-- Claim C6 witness: instantiation at the generic-exception error and
at a concrete normal outcome. -/
theorem turn_boundary_error_translation_witness :
    detect_wake_word (.error (.exc "boom")) = none
    ∧ transcribe_audio (.error .connectionRefused) = none :=
  ⟨(turn_boundary_error_translation (.exc "boom") ⟨true, false⟩ none []).1,
   (turn_boundary_error_translation .connectionRefused ⟨true, false⟩ none []).2.1⟩

/-- Claim C3: after the first-completed race of the wake-word gate,
every still-pending task is cancelled; if the receiver completed first
with a detection the gate returns that detection name and cancels the
sender; if the sender completed first the gate returns `none` and
cancels the receiver; and a cancelled (still-pending) receiver never
contributes a result — the gate result is `none` no matter what the
receiver would have produced. -/
theorem wake_gate_race_correctness (d : GateDone) (events : List WakeEvent)
    (w : String) (r r2 : Option String) :
    (d.recvDone = true → d.sendDone = false →
      receive_wake_detection events = some w →
      gateResult d (receive_wake_detection events) = some w
        ∧ gateCancelsSend d = true ∧ gateCancelsRecv d = false)
    ∧ (d.sendDone = true → d.recvDone = false →
      gateResult d r = none
        ∧ gateCancelsRecv d = true ∧ gateCancelsSend d = false)
    ∧ (d.recvDone = false → gateResult d r = gateResult d r2) := by
  refine ⟨?_, ?_, ?_⟩
  · intro hrecv hsend hdet
    simp [gateResult, gateCancelsSend, gateCancelsRecv, hrecv, hsend, hdet]
  · intro hsend hrecv
    simp [gateResult, gateCancelsSend, gateCancelsRecv, hrecv, hsend]
  · intro hrecv
    simp [gateResult, hrecv]

/-- Claim C3 witness: a receiver-first race with a concrete detection,
and a sender-first race. -/
theorem wake_gate_race_correctness_witness :
    (gateResult ⟨false, true⟩ (receive_wake_detection [WakeEvent.detection (some "jarvis")])
        = some "jarvis"
      ∧ gateCancelsSend ⟨false, true⟩ = true ∧ gateCancelsRecv ⟨false, true⟩ = false)
    ∧ (gateResult ⟨true, false⟩ (some "ghost") = none
      ∧ gateCancelsRecv ⟨true, false⟩ = true ∧ gateCancelsSend ⟨true, false⟩ = false) :=
  ⟨(wake_gate_race_correctness ⟨false, true⟩ [WakeEvent.detection (some "jarvis")]
      "jarvis" none none).1 rfl rfl (by decide),
   (wake_gate_race_correctness ⟨true, false⟩ [] "x" (some "ghost") none).2.1 rfl rfl⟩

/-- Every event of an ignored prefix is skipped by the wake-word
receiver. -/
theorem receive_wake_detection_skip (pre : List WakeEvent)
    (h : ∀ e ∈ pre, e.isOther = true) (l : List WakeEvent) :
    receive_wake_detection (pre ++ l) = receive_wake_detection l := by
  induction pre with
  | nil => rfl
  | cons e pre ih =>
    have he : e.isOther = true := h e (List.mem_cons_self e pre)
    have hpre : ∀ x ∈ pre, x.isOther = true := fun x hx => h x (List.mem_cons_of_mem e hx)
    cases e with
    | detection name => simp [WakeEvent.isOther] at he
    | notDetected => simp [WakeEvent.isOther] at he
    | other t => simpa [receive_wake_detection] using ih hpre

/-- Claim C10: whenever the wake-word receiver returns because of a
detection event it returns a name — `"unknown"` when the event carries
no usable name — never `none`; and a `none` return happens only when
the first non-ignored thing on the stream is a `NotDetected` event or
the stream closes with every event ignored. -/
theorem wake_detection_name_nonnull (pre rest : List WakeEvent) (name : Option String) :
    ((∀ e ∈ pre, e.isOther = true) →
      receive_wake_detection (pre ++ WakeEvent.detection name :: rest)
        = some (orUnknown name))
    ∧ orUnknown none = "unknown"
    ∧ (∀ events : List WakeEvent, receive_wake_detection events = none →
       (∃ p r, (∀ e ∈ p, e.isOther = true) ∧ events = p ++ WakeEvent.notDetected :: r)
         ∨ (∀ e ∈ events, e.isOther = true)) := by
  refine ⟨?_, rfl, ?_⟩
  · intro h
    rw [receive_wake_detection_skip pre h]
    rfl
  · intro events
    induction events with
    | nil =>
      intro _
      exact Or.inr (by simp)
    | cons e rest ih =>
      intro hnone
      cases e with
      | detection n => simp [receive_wake_detection] at hnone
      | notDetected =>
        exact Or.inl ⟨[], rest, by simp, rfl⟩
      | other t =>
        have hnone' : receive_wake_detection rest = none := by
          simpa [receive_wake_detection] using hnone
        rcases ih hnone' with ⟨p, r, hp, hr⟩ | hall
        · exact Or.inl ⟨WakeEvent.other t :: p, r,
            by
              intro x hx
              rcases List.mem_cons.mp hx with h1 | h2
              · subst h1; rfl
              · exact hp x h2,
            by rw [hr]; rfl⟩
        · refine Or.inr ?_
          intro x hx
          rcases List.mem_cons.mp hx with h1 | h2
          · subst h1; rfl
          · exact hall x h2

/-- Claim C10 witness: a nameless detection behind an ignored event
yields `"unknown"`, and a bare `NotDetected` stream is reported as such
by the only-terminal characterization. -/
theorem wake_detection_name_nonnull_witness :
    receive_wake_detection [WakeEvent.other "ping", WakeEvent.detection none]
      = some "unknown" :=
  (wake_detection_name_nonnull [WakeEvent.other "ping"] [] none).1 (by decide)

/-- On a stream with no final-transcript event the receiver keeps its
accumulator: partial-transcript text is forwarded to the chunk callback
but never stored, so the loop ends (connection closed) with the
accumulator it started with and the stream fully consumed. -/
theorem receiveTextLoop_no_final (events : List AsrEvent)
    (h : ∀ e ∈ events, e.isFinal = false) (acc : String)
    (chunkCalls finalCalls : List String) :
    (receiveTextLoop acc chunkCalls finalCalls events).transcriptText = acc
    ∧ (receiveTextLoop acc chunkCalls finalCalls events).finalCalls = finalCalls
    ∧ (receiveTextLoop acc chunkCalls finalCalls events).rest = [] := by
  induction events generalizing chunkCalls with
  | nil => exact ⟨rfl, rfl, rfl⟩
  | cons e rest ih =>
    have he : e.isFinal = false := h e (List.mem_cons_self e rest)
    have hrest : ∀ x ∈ rest, x.isFinal = false := fun x hx => h x (List.mem_cons_of_mem e hx)
    cases e with
    | transcript t => simp [AsrEvent.isFinal] at he
    | transcriptChunk t => exact ih hrest (chunkCalls ++ [t])
    | transcriptStart => exact ih hrest chunkCalls
    | transcriptStop => exact ih hrest chunkCalls
    | other t => exact ih hrest chunkCalls

/-- Reaching the first final-transcript event: the receiver returns its
text, fires the final callback exactly once, and leaves everything after
that event unconsumed. -/
theorem receiveTextLoop_first_final (pre : List AsrEvent)
    (h : ∀ e ∈ pre, e.isFinal = false) (X : String) (post : List AsrEvent)
    (acc : String) (chunkCalls finalCalls : List String) :
    (receiveTextLoop acc chunkCalls finalCalls (pre ++ AsrEvent.transcript X :: post)).transcriptText = X
    ∧ (receiveTextLoop acc chunkCalls finalCalls (pre ++ AsrEvent.transcript X :: post)).finalCalls
        = finalCalls ++ [X]
    ∧ (receiveTextLoop acc chunkCalls finalCalls (pre ++ AsrEvent.transcript X :: post)).rest = post := by
  induction pre generalizing chunkCalls with
  | nil => exact ⟨rfl, rfl, rfl⟩
  | cons e pre ih =>
    have he : e.isFinal = false := h e (List.mem_cons_self e pre)
    have hpre : ∀ x ∈ pre, x.isFinal = false := fun x hx => h x (List.mem_cons_of_mem e hx)
    cases e with
    | transcript t => simp [AsrEvent.isFinal] at he
    | transcriptChunk t => exact ih hpre (chunkCalls ++ [t])
    | transcriptStart => exact ih hpre chunkCalls
    | transcriptStop => exact ih hpre chunkCalls
    | other t => exact ih hpre chunkCalls

/-- Claim C2 counterexample: on the stream `[partial "hello",
partial "world"]` followed by connection closed, the receiver returns
the empty string, not the last partial text `"world"` that the claim
predicts — partial text is never retained. -/
theorem receiver_last_partial_counterexample :
    (receive_text [AsrEvent.transcriptChunk "hello", AsrEvent.transcriptChunk "world"]).transcriptText
      = ""
    ∧ (receive_text [AsrEvent.transcriptChunk "hello", AsrEvent.transcriptChunk "world"]).transcriptText
      ≠ "world" := by
  constructor
  · rfl
  · decide

/-- Claim C2 (amended): if the stream contains a final-transcript event
with text `X`, the receiver returns `X` exactly once (the final callback
fires once, with `X`) and consumes no events after that final event; if
the stream ends with the connection closed before any final event, the
receiver returns the empty string — partial-transcript text is only
forwarded to the chunk callback, never retained for the return value. -/
theorem receiver_terminal_event_determinism (pre post : List AsrEvent) (X : String) :
    ((∀ e ∈ pre, e.isFinal = false) →
      (receive_text (pre ++ AsrEvent.transcript X :: post)).transcriptText = X
      ∧ (receive_text (pre ++ AsrEvent.transcript X :: post)).finalCalls = [X]
      ∧ (receive_text (pre ++ AsrEvent.transcript X :: post)).rest = post)
    ∧ (∀ events : List AsrEvent, (∀ e ∈ events, e.isFinal = false) →
      (receive_text events).transcriptText = "" ∧ (receive_text events).rest = []) := by
  constructor
  · intro h
    have := receiveTextLoop_first_final pre h X post "" [] []
    simpa [receive_text] using this
  · intro events h
    have := receiveTextLoop_no_final events h "" [] []
    exact ⟨this.1, this.2.2⟩

/-- Claim C2 witness: a partial, a final `"X"` and a trailing event —
the receiver returns `"X"`, fires the final callback once and leaves the
trailing event unread; and a partial-only stream returns the empty
string. -/
theorem receiver_terminal_event_determinism_witness :
    ((receive_text [AsrEvent.transcriptChunk "he", AsrEvent.transcript "X",
        AsrEvent.other "late"]).transcriptText = "X"
      ∧ (receive_text [AsrEvent.transcriptChunk "he", AsrEvent.transcript "X",
        AsrEvent.other "late"]).finalCalls = ["X"]
      ∧ (receive_text [AsrEvent.transcriptChunk "he", AsrEvent.transcript "X",
        AsrEvent.other "late"]).rest = [AsrEvent.other "late"])
    ∧ ((receive_text [AsrEvent.transcriptChunk "he"]).transcriptText = ""
      ∧ (receive_text [AsrEvent.transcriptChunk "he"]).rest = []) :=
  ⟨(receiver_terminal_event_determinism [AsrEvent.transcriptChunk "he"]
      [AsrEvent.other "late"] "X").1 (by decide),
   (receiver_terminal_event_determinism [] [] "").2
      [AsrEvent.transcriptChunk "he"] (by decide)⟩

/-- Claim C4 counterexample: a turn whose LLM call raises still appends
the user entry (appended before the LLM call, at step 2 of the loop) to
the in-memory history, so "no ConversationEntry is appended for turn K"
fails; the persisted file, however, is untouched. -/
theorem llm_failure_appends_user_entry :
    interactiveLoopIter ⟨[], none, InteractiveStopEvent.init⟩ (some "hi")
        (Except.error (PyErr.exc "boom")) 5 6
      = IterEnd.next ⟨[⟨"user", "hi", 5⟩], none, InteractiveStopEvent.init⟩
    ∧ ([⟨"user", "hi", 5⟩] : List ConversationEntry) ≠ [] := by
  constructor
  · rfl
  · decide

/-- Claim C4 (amended): if the LLM call raises on turn K, no assistant
entry is appended, the persisted history file is unchanged from before
turn K, the stop event is untouched, and the loop proceeds to the next
iteration without the process exiting — but the user entry for turn K,
appended before the LLM call, remains in the in-memory history. -/
theorem llm_failure_atomicity (s : OrchState) (instr : String) (err : PyErr)
    (userTs asstTs : Int) :
    isBlank instr = false →
    interactiveLoopIter s (some instr) (Except.error err) userTs asstTs
      = IterEnd.next
          ⟨s.conversationHistory ++ [⟨"user", instr, userTs⟩], s.historyFile, s.stopEvent⟩ := by
  intro h
  simp [interactiveLoopIter, get_llm_response, h]

/-- Claim C4 witness: concrete failing turn on a nonempty state — the
file and stop event survive, only the user entry is added in memory. -/
theorem llm_failure_atomicity_witness :
    interactiveLoopIter
        ⟨[⟨"user", "a", 0⟩], some [⟨"user", "a", 0⟩], ⟨false, 1⟩⟩
        (some "hello") (Except.error PyErr.osError) 7 8
      = IterEnd.next
          ⟨[⟨"user", "a", 0⟩, ⟨"user", "hello", 7⟩], some [⟨"user", "a", 0⟩], ⟨false, 1⟩⟩ := by
  have := llm_failure_atomicity
    ⟨[⟨"user", "a", 0⟩], some [⟨"user", "a", 0⟩], ⟨false, 1⟩⟩ "hello" PyErr.osError 7 8
    (by decide)
  simpa using this

/-- Claim C5 counterexample: an iteration that gets an empty (whitespace
only) instruction while the stop event is set continues with the stop
event still set and the SIGINT counter not reset — the empty path of the
loop has no `stop_event.clear()` call, so the claim that every iteration
ends with the signal cleared before the next listen fails. -/
theorem empty_path_does_not_clear :
    interactiveLoopIter ⟨[], none, ⟨true, 1⟩⟩ (some "   ") (Except.ok "resp") 0 0
      = IterEnd.next ⟨[], none, ⟨true, 1⟩⟩
    ∧ (InteractiveStopEvent.is_set ⟨true, 1⟩) = true := by
  constructor
  · rfl
  · rfl

/-- Claim C5 (amended): the orchestrator clears the stop signal only at
the end of a fully completed turn — after the assistant entry is
persisted (and TTS, which touches neither history nor the signal) — and
on the empty/whitespace-instruction path, as on the no-instruction path,
it continues the loop without engaging the LLM and without clearing the
stop signal, leaving the state unchanged. -/
theorem stop_signal_rearming (s : OrchState) (instr response : String)
    (llmRun : Except PyErr String) (userTs asstTs : Int) :
    (isBlank instr = false → response ≠ "" →
      interactiveLoopIter s (some instr) (Except.ok response) userTs asstTs
        = IterEnd.next
            ⟨s.conversationHistory ++ [⟨"user", instr, userTs⟩, ⟨"assistant", response, asstTs⟩],
             some (s.conversationHistory
               ++ [⟨"user", instr, userTs⟩, ⟨"assistant", response, asstTs⟩]),
             s.stopEvent.clear⟩
      ∧ (s.stopEvent.clear).is_set = false ∧ (s.stopEvent.clear).sigintCount = 0)
    ∧ (isBlank instr = true →
      interactiveLoopIter s (some instr) llmRun userTs asstTs = IterEnd.next s)
    ∧ interactiveLoopIter s none llmRun userTs asstTs = IterEnd.next s := by
  refine ⟨?_, ?_, rfl⟩
  · intro hinstr hresp
    refine ⟨?_, rfl, rfl⟩
    simp [interactiveLoopIter, get_llm_response, hinstr, hresp,
      save_conversation_history]
  · intro hinstr
    simp [interactiveLoopIter, hinstr]

/-- Claim C5 witness: a full successful turn from a state with the stop
signal set and one prior interrupt — the iteration ends cleared, with
both entries persisted. -/
theorem stop_signal_rearming_witness :
    interactiveLoopIter ⟨[], none, ⟨true, 1⟩⟩ (some "hi") (Except.ok "ok!") 1 2
      = IterEnd.next
          ⟨[⟨"user", "hi", 1⟩, ⟨"assistant", "ok!", 2⟩],
           some [⟨"user", "hi", 1⟩, ⟨"assistant", "ok!", 2⟩],
           ⟨false, 0⟩⟩ := by
  have := (stop_signal_rearming ⟨[], none, ⟨true, 1⟩⟩ "hi" "ok!" (Except.ok "ok!") 1 2).1
    (by decide) (by decide)
  simpa using this.1

/-- Claim C8 (bug evidence): with an active progress display (a `Live`
object passed and `quiet=False`) the display-update step of the read
loop raises `AttributeError` on the very first chunk — the code reads
`stop_event.ctrl_c_pressed`, an attribute `InteractiveStopEvent` never
defines — so only the first chunk reaches the handler and the exception
escapes `read_audio_stream`; with the display suppressed
(`quiet=True`) the same run completes normally. -/
theorem display_update_step_raises :
    read_audio_stream 2 (fun _ => false) (fun _ => .ok [7]) true false
        InteractiveStopEvent.init
      = ⟨[[7]], some (PyErr.attributeError "ctrl_c_pressed")⟩
    ∧ read_audio_stream 2 (fun i => decide (1 ≤ i)) (fun _ => .ok [7]) true true
        InteractiveStopEvent.init
      = ⟨[[7]], none⟩ :=
  ⟨rfl, rfl⟩

/-- Claim C1 counterexample: with a stop signal scheduled to be set
after `N = 2` chunk reads and an active progress display, the sender
emits only the first audio chunk before the display update raises, not
the two chunks the claim requires (the `AudioStop` end marker is still
emitted by the `finally` block). -/
theorem sender_framing_counterexample :
    (send_audio 5 (fun i => decide (2 ≤ i)) (fun i => .ok [i]) true false
        InteractiveStopEvent.init).written
      = [.transcribe, .audioStart 16000 2 1, .audioChunk 16000 2 1 [0], .audioStop]
    ∧ (send_audio 5 (fun i => decide (2 ≤ i)) (fun i => .ok [i]) true false
        InteractiveStopEvent.init).written
      ≠ [.transcribe, .audioStart 16000 2 1, .audioChunk 16000 2 1 [0],
         .audioChunk 16000 2 1 [1], .audioStop]
    ∧ (send_audio 5 (fun i => decide (2 ≤ i)) (fun i => .ok [i]) true false
        InteractiveStopEvent.init).error
      = some (PyErr.attributeError "ctrl_c_pressed") := by
  refine ⟨rfl, by decide, rfl⟩

/-- A display-free run of the read loop whose stop signal first turns
true after `n` more reads handles exactly those `n` chunks, in order,
and ends without an exception. -/
theorem readAudioLoop_no_display (isSet : Nat → Bool) (chunks : Nat → Chunk)
    (live quiet : Bool) (st : InteractiveStopEvent)
    (hdisp : (live && !quiet) = false) :
    ∀ (n fuel i : Nat) (acc : List Chunk),
      (∀ j, j < n → isSet (i + j) = false) → isSet (i + n) = true → n < fuel →
      readAudioLoop isSet (fun k => .ok (chunks k)) live quiet st fuel i acc
        = ⟨acc ++ (List.range' i n).map chunks, none⟩ := by
  intro n
  induction n with
  | zero =>
    intro fuel i acc _ hset hfuel
    match fuel, hfuel with
    | fuel + 1, _ =>
      have h0 : isSet i = true := by simpa using hset
      simp [readAudioLoop, h0]
  | succ n ih =>
    intro fuel i acc hbelow hset hfuel
    match fuel, hfuel with
    | fuel + 1, hfuel =>
      have h0 : isSet i = false := by simpa using hbelow 0 (Nat.succ_pos n)
      have hbelow' : ∀ j, j < n → isSet (i + 1 + j) = false := by
        intro j hj
        have := hbelow (j + 1) (Nat.succ_lt_succ hj)
        simpa [Nat.add_assoc, Nat.add_comm 1 j] using this
      have hset' : isSet (i + 1 + n) = true := by
        simpa [Nat.add_assoc, Nat.add_comm 1 n] using hset
      have ihstep := ih (fuel) (i + 1) (acc ++ [chunks i]) hbelow' hset'
        (Nat.lt_of_succ_lt_succ hfuel)
      simp only [readAudioLoop, h0, hdisp, Bool.false_eq_true, if_false, ihstep]
      rw [List.range'_succ]
      simp

/-- Claim C1 (amended): whenever the progress display is inactive
(`live` absent or `quiet` set) and the stop signal first turns true
after `N ≥ 0` successful chunk reads, the sender writes exactly one
begin marker (preceded only by the `Transcribe` request), then exactly
the `N` chunks the reader produced, byte-identical and in order, then
exactly one end marker, raising nothing; and in every run — display
active or not, reads failing or not — whatever was written is one
`Transcribe`, one begin marker, a run of audio chunks and exactly one
final end marker, so the end marker is emitted even when the read loop
raised partway. -/
theorem sender_framing (N fuel : Nat) (isSet : Nat → Bool) (chunks : Nat → Chunk)
    (live quiet : Bool) (st : InteractiveStopEvent) (reads : Nat → ReadResult) :
    ((live = false ∨ quiet = true) →
      (∀ j, j < N → isSet j = false) → isSet N = true → N < fuel →
      send_audio fuel isSet (fun k => .ok (chunks k)) live quiet st
        = ⟨[.transcribe, .audioStart PYAUDIO_RATE SAMPLE_WIDTH PYAUDIO_CHANNELS]
            ++ (List.range N).map
                (fun k => .audioChunk PYAUDIO_RATE SAMPLE_WIDTH PYAUDIO_CHANNELS (chunks k))
            ++ [.audioStop], none⟩)
    ∧ ∃ sent : List Chunk,
        (send_audio fuel isSet reads live quiet st).written
          = [.transcribe, .audioStart PYAUDIO_RATE SAMPLE_WIDTH PYAUDIO_CHANNELS]
            ++ sent.map (fun c => .audioChunk PYAUDIO_RATE SAMPLE_WIDTH PYAUDIO_CHANNELS c)
            ++ [.audioStop] := by
  constructor
  · intro hdisp hbelow hset hfuel
    have hd : (live && !quiet) = false := by
      rcases hdisp with h | h <;> simp [h]
    have hloop := readAudioLoop_no_display isSet chunks live quiet st hd N fuel 0 []
      (by simpa using hbelow) (by simpa using hset) hfuel
    simp only [send_audio, read_audio_stream, hloop]
    rw [List.range_eq_range']
    simp [List.map_map, Function.comp]
  · exact ⟨(read_audio_stream fuel isSet reads live quiet st).handled, rfl⟩

/-- Claim C1 witness: a display-free run with the stop signal set after
two reads sends the begin marker, both chunks and the end marker. -/
theorem sender_framing_witness :
    send_audio 3 (fun i => decide (2 ≤ i)) (fun k => .ok [k]) false false
        InteractiveStopEvent.init
      = ⟨[.transcribe, .audioStart 16000 2 1, .audioChunk 16000 2 1 [0],
          .audioChunk 16000 2 1 [1], .audioStop], none⟩ := by
  have h := (sender_framing 2 3 (fun i => decide (2 ≤ i)) (fun k => [k]) false false
      InteractiveStopEvent.init (fun _ => .osErr)).1 (Or.inl rfl)
      (by decide) (by decide) (by decide)
  rw [h]
  rfl

/-- Claim C7 witness: from the freshly initialized stop event the first
two calls return 1 and 2, clearing a counted state resets to 0 and
setting it keeps the count. -/
theorem stop_signal_counter_semantics_witness :
    InteractiveStopEvent.callValue ⟨false, 0⟩ 0 = 0 + 0 + 1
    ∧ (InteractiveStopEvent.clear ⟨true, 5⟩).sigintCount = 0
    ∧ (InteractiveStopEvent.set ⟨false, 3⟩).sigintCount = 3 :=
  ⟨(stop_signal_counter_semantics ⟨false, 0⟩ 0).1,
   (stop_signal_counter_semantics ⟨true, 5⟩ 0).2.2.2.1,
   (stop_signal_counter_semantics ⟨false, 3⟩ 0).2.2.2.2⟩

/-- Claim C9 witness: the minute boundary instance and the empty-history
literal at a concrete clock value. -/
theorem time_ago_formatting_boundaries_witness :
    format_timedelta_to_ago 90 = "1 minute ago"
    ∧ format_conversation_for_llm 12345 [] = "No previous conversation." :=
  ⟨time_ago_formatting_boundaries.1, time_ago_formatting_boundaries.2.2.2.2 12345⟩
